import Mathlib

/-!
Shallow embedding of the PICO-RS-8 CHIP-8 interpreter core
(src/memory.rs, src/display.rs, src/cpu.rs, src/emulator.rs).

Machine integers are modelled as `Nat` with explicit `% 2^w` at the points
where the Rust code wraps (u8/u16 arithmetic compiles to wrapping arithmetic
in release builds; `wrapping_add` / `overflowing_add` wrap by definition).
Rust array indexing panics when the index is out of range; every such
indexing site is modelled with a bounds check returning `Except Fault _`,
where the `Fault` constructor records which array was over-indexed
(`data` / `keys` / `stack`).  The one indexing site the source reduces
modulo the array length (`memory.data[(self.i + row) % memory.data.len()]`
in the sprite loop) is modelled by the total `Memory.readMod`.

The timers live behind an `Arc<Mutex<u8>>` with a background decrement
thread; a single `decode` call only ever reads or writes the current
counter value, so they are embedded as two plain counter fields of the
CPU state.  `rand::random::<u8>()` in the `CXNN` arm is embedded as an
explicit oracle argument `rnd` (the byte drawn this cycle).
-/

namespace Pico8

/-- `RAM_SIZE` in src/memory.rs: 4 KB byte array. -/
def RAM_SIZE : Nat := 4096

/-- `FONT_ADDRESS` in src/emulator.rs. -/
def FONT_ADDRESS : Nat := 0x050

/-- `ROM_ADDRESS` in src/emulator.rs. -/
def ROM_ADDRESS : Nat := 0x200

/-- `SHIFT_SET_MODE` in src/cpu.rs. -/
def SHIFT_SET_MODE : Bool := true

/-- `JUMP_VX_MODE` in src/cpu.rs. -/
def JUMP_VX_MODE : Bool := false

/-- `WIDTH` in src/display.rs (= `SCREEN_WIDTH` in src/emulator.rs). -/
def WIDTH : Nat := 64

/-- `HEIGHT` in src/display.rs (= `SCREEN_HEIGHT` in src/emulator.rs). -/
def HEIGHT : Nat := 32

/-- Which fixed-size array an out-of-range index hit (a Rust panic site). -/
inductive Fault where
  | memOOB
  | keyOOB
  | stackOOB
deriving DecidableEq

/-- `Memory` (src/memory.rs): `data: [u8; RAM_SIZE]`.  Bytes are read back
modulo 256, reflecting the `u8` element type. -/
structure Memory where
  data : Nat → Nat

/-- `memory.data[a]` as an rvalue: panics (`.error .memOOB`) out of range. -/
def Memory.read (m : Memory) (a : Nat) : Except Fault Nat :=
  if a < RAM_SIZE then .ok (m.data a % 256) else .error .memOOB

/-- `memory.data[a] = v` : panics (`.error .memOOB`) out of range. -/
def Memory.write (m : Memory) (a v : Nat) : Except Fault Memory :=
  if a < RAM_SIZE then .ok ⟨fun t => if t = a then v % 256 else m.data t⟩
  else .error .memOOB

/-- `memory.data[a % memory.data.len()]` (the sprite-byte read in `DXYN`):
the source reduces this index modulo the capacity, so it never panics. -/
def Memory.readMod (m : Memory) (a : Nat) : Nat := m.data (a % RAM_SIZE) % 256

/-- `Display` (src/display.rs): `pixels: [[bool; WIDTH]; HEIGHT]`, row-major.
The `width`/`height` fields always hold `SCREEN_WIDTH`/`SCREEN_HEIGHT`
(64/32, the only values `Emulator::new` ever passes), so they are embedded
as the constants `WIDTH`/`HEIGHT`.  The pixel-buffer channel sender is
render-side plumbing and is not part of the state. -/
structure Display where
  pixels : Nat → Nat → Bool

/-- `Display::clear`. -/
def Display.clear (_d : Display) : Display := ⟨fun _ _ => false⟩

/-- Point update of a pixel grid. -/
def updPix (g : Nat → Nat → Bool) (r c : Nat) (b : Bool) : Nat → Nat → Bool :=
  fun r' c' => if r' = r ∧ c' = c then b else g r' c'

/-- Point update of a register/stack file. -/
def updf (f : Nat → Nat) (j val : Nat) : Nat → Nat :=
  fun t => if t = j then val else f t

/-- `((sprite_byte >> (7 - col)) & 0x01) == 1`. -/
def spriteBit (byte col : Nat) : Bool := byte / 2 ^ (7 - col) % 2 == 1

/-- Inner `for col in 0..8` loop shared by `Display::draw_sprite` and the
inlined copy in the `DXYN` arm of `CPU::decode`.  State is
(pixel grid, collision flag); `fuel` counts the remaining iterations,
`col` is the current column.  The source's `if col > width { break }`
is kept (it never fires for `col ≤ 7`). -/
def blitCols (byte x yrow : Nat) :
    Nat → Nat → ((Nat → Nat → Bool) × Bool) → ((Nat → Nat → Bool) × Bool)
  | _, 0, st => st
  | col, fuel + 1, st =>
    if col > WIDTH then st
    else
      blitCols byte x yrow (col + 1) fuel
        (updPix st.1 (yrow % HEIGHT) ((x + col) % WIDTH)
           (Bool.xor (st.1 (yrow % HEIGHT) ((x + col) % WIDTH)) (spriteBit byte col)),
         if st.1 (yrow % HEIGHT) ((x + col) % WIDTH) && spriteBit byte col then true else st.2)

/-- Row loop of `Display::draw_sprite` (src/display.rs): the sprite byte
comes from the slice `sprite[row]`, which panics (`none`) when `row`
is past the slice's end; the loop breaks when `row > height`
(the source's off-by-one comparison, kept verbatim). -/
def drawRows (sprite : List Nat) (x y : Nat) :
    Nat → Nat → ((Nat → Nat → Bool) × Bool) → Option ((Nat → Nat → Bool) × Bool)
  | _, 0, st => some st
  | row, fuel + 1, st =>
    if row > HEIGHT then some st
    else
      match sprite.get? row with
      | none => none
      | some byte => drawRows sprite x y (row + 1) fuel (blitCols (byte % 256) x (y + row) 0 8 st)

/-- `Display::draw_sprite(x, y, n, sprite) -> bool` (src/display.rs).
Returns the new display and the `pixel_erased` collision flag; `none`
models the panic when the slice is shorter than the processed rows. -/
def Display.draw_sprite (d : Display) (x y n : Nat) (sprite : List Nat) :
    Option (Display × Bool) :=
  (drawRows sprite x y 0 n (d.pixels, false)).map fun st => (⟨st.1⟩, st.2)

/-- Row loop of the inlined sprite draw in the `DXYN` arm of `CPU::decode`
(src/cpu.rs): identical to `drawRows` except the sprite byte is read from
memory at `(i + row) % memory.data.len()`, which never panics. -/
def cpuDrawRows (m : Memory) (i x y : Nat) :
    Nat → Nat → ((Nat → Nat → Bool) × Bool) → ((Nat → Nat → Bool) × Bool)
  | _, 0, st => st
  | row, fuel + 1, st =>
    if row > HEIGHT then st
    else cpuDrawRows m i x y (row + 1) fuel (blitCols (m.readMod (i + row)) x (y + row) 0 8 st)

/-- Toggle parity contributed to cell `(p, q)` by the column loop of a
sprite row starting at column `col` with `fuel` iterations left: within a
row the eight columns land on eight distinct cells, so this is simply
"some remaining column with a set sprite bit lands on `(p, q)`",
accumulated as an exclusive or to mirror the loop structure. -/
def colTog (byte x yrow : Nat) : Nat → Nat → Nat → Nat → Bool
  | _, 0, _, _ => false
  | col, fuel + 1, p, q =>
    if col > WIDTH then false
    else
      Bool.xor (decide (p = yrow % HEIGHT ∧ q = (x + col) % WIDTH) && spriteBit byte col)
        (colTog byte x yrow (col + 1) fuel p q)

/-- Toggle parity contributed to cell `(p, q)` by the rows of a sprite draw
from `row` with `fuel` iterations left (the XOR mask `draw_sprite` applies,
which depends only on the sprite bytes and the draw position). -/
def rowTog (sprite : List Nat) (x y : Nat) : Nat → Nat → Nat → Nat → Bool
  | _, 0, _, _ => false
  | row, fuel + 1, p, q =>
    if row > HEIGHT then false
    else
      match sprite.get? row with
      | none => false
      | some byte =>
        Bool.xor (colTog (byte % 256) x (y + row) 0 8 p q) (rowTog sprite x y (row + 1) fuel p q)

/-- `CPU` (src/cpu.rs): pc/sp/stack/v/i plus the two timer counters
(the `u8` behind `delay_timer` / `sound_timer`). -/
structure CPU where
  pc : Nat
  sp : Nat
  stack : Nat → Nat
  v : Nat → Nat
  i : Nat
  delay : Nat
  sound : Nat

/-- Read of general register `j` (`self.v[j]` with `u8` element type). -/
def CPU.reg (s : CPU) (j : Nat) : Nat := s.v j % 256

/-- `self.stack[j]` as an rvalue: the array has 16 entries. -/
def stackRead (s : CPU) (j : Nat) : Except Fault Nat :=
  if j < 16 then .ok (s.stack j % 65536) else .error .stackOOB

/-- `keys[j]`: the key-state array has 16 entries. -/
def keyRead (keys : Nat → Bool) (j : Nat) : Except Fault Bool :=
  if j < 16 then .ok (keys j) else .error .keyOOB

/-- u16 wrap. -/
def w16 (n : Nat) : Nat := n % 65536

/-- u16 wrapping `- 2` (the `pc`/address adjustments in jump/call/wait). -/
def sub2_16 (n : Nat) : Nat := (n + 65534) % 65536

/-- The `FX0A` key scan: first pressed index in `keys.iter().enumerate()`. -/
def firstKey (keys : Nat → Bool) : Option Nat :=
  (List.range 16).find? fun j => keys j

/-- `FX55` body: `for i in 0..=vx { memory.data[self.i] = self.v[i]; self.i += 1 }`.
`j` is the loop counter, `fuel` the remaining iterations, `i` the index
register (wrapping u16 increment). -/
def storeRegs (v : Nat → Nat) : Nat → Nat → Nat → Memory → Except Fault (Memory × Nat)
  | _, 0, i, m => .ok (m, i)
  | j, fuel + 1, i, m =>
    match m.write i (v j % 256) with
    | .error f => .error f
    | .ok m' => storeRegs v (j + 1) fuel ((i + 1) % 65536) m'

/-- `FX65` body: `for i in 0..=vx { self.v[i] = memory.data[self.i]; self.i += 1 }`. -/
def loadRegs (m : Memory) : Nat → Nat → Nat → (Nat → Nat) → Except Fault ((Nat → Nat) × Nat)
  | _, 0, i, v => .ok (v, i)
  | j, fuel + 1, i, v =>
    match m.read i with
    | .error f => .error f
    | .ok b => loadRegs m (j + 1) fuel ((i + 1) % 65536) (updf v j b)

/-- Shift source register file: in `SHIFT_SET_MODE` the shifts first copy
`VY` into `VX` (`self.v[vx] = self.v[vy]`), then shift `VX` in place. -/
def shiftSrc (s : CPU) (x y : Nat) : Nat → Nat :=
  if SHIFT_SET_MODE then updf s.v x (s.reg y) else s.v

/-- The `DXYN` arm body up to the collision flag: coordinates from `VX`/`VY`
are reduced into the grid only when one of them is out of range (the source
reduces both inside one `if`), then the inlined row loop runs with height
`n`.  Returns (pixel grid, collision flag). -/
def drawOp (s : CPU) (m : Memory) (d : Display) (vx vy n : Nat) :
    (Nat → Nat → Bool) × Bool :=
  cpuDrawRows m s.i
    (if s.reg vx ≥ WIDTH ∨ s.reg vy ≥ HEIGHT then s.reg vx % WIDTH else s.reg vx)
    (if s.reg vx ≥ WIDTH ∨ s.reg vy ≥ HEIGHT then s.reg vy % HEIGHT else s.reg vy)
    0 n (d.pixels, false)

/-- The `match nibbles` body of `CPU::decode` (src/cpu.rs), arm for arm and
in source order (the disjoint match arms are rendered as an equivalent
first-match if-chain).  `rnd` is the byte `rand::random::<u8>()` would
produce this cycle.  Unknown opcodes fall through to the logging no-op. -/
def execOp (s : CPU) (m : Memory) (d : Display) (keys : Nat → Bool) (rnd : Nat)
    (n0 n1 n2 n3 : Nat) : Except Fault (CPU × Memory × Display) :=
  -- 00E0: clear the display
  if n0 = 0 ∧ n1 = 0 ∧ n2 = 0xE ∧ n3 = 0 then
    .ok (s, m, d.clear)
  -- 00EE: return from a subroutine (underflow logged, no effect)
  else if n0 = 0 ∧ n1 = 0 ∧ n2 = 0xE ∧ n3 = 0xE then
    if s.sp > 0 then
      match stackRead s (s.sp - 1) with
      | .error f => .error f
      | .ok a => .ok ({ s with pc := a, sp := s.sp - 1 }, m, d)
    else .ok (s, m, d)
  -- 1NNN: jump (pc -= 2 to compensate the post-increment)
  else if n0 = 1 then
    .ok ({ s with pc := sub2_16 (n1 * 256 + n2 * 16 + n3) }, m, d)
  -- 2NNN: call subroutine (overflow guarded by `sp < 15`)
  else if n0 = 2 then
    if s.sp < 15 then
      .ok ({ s with stack := updf s.stack s.sp s.pc, sp := s.sp + 1,
                    pc := sub2_16 (n1 * 256 + n2 * 16 + n3) }, m, d)
    else .ok (s, m, d)
  -- 3XNN: skip if VX == NN
  else if n0 = 3 then
    if n1 < 16 ∧ s.reg n1 = n2 * 16 + n3 then .ok ({ s with pc := w16 (s.pc + 2) }, m, d)
    else .ok (s, m, d)
  -- 4XNN: skip if VX != NN
  else if n0 = 4 then
    if n1 < 16 ∧ s.reg n1 ≠ n2 * 16 + n3 then .ok ({ s with pc := w16 (s.pc + 2) }, m, d)
    else .ok (s, m, d)
  -- 5XY0: skip if VX == VY
  else if n0 = 5 ∧ n3 = 0 then
    if n1 < 16 ∧ n2 < 16 ∧ s.reg n1 = s.reg n2 then .ok ({ s with pc := w16 (s.pc + 2) }, m, d)
    else .ok (s, m, d)
  -- 6XNN: VX := NN
  else if n0 = 6 then
    if n1 < 16 then .ok ({ s with v := updf s.v n1 (n2 * 16 + n3) }, m, d)
    else .ok (s, m, d)
  -- 7XNN: VX := VX + NN (wrapping)
  else if n0 = 7 then
    if n1 < 16 then .ok ({ s with v := updf s.v n1 ((s.reg n1 + (n2 * 16 + n3)) % 256) }, m, d)
    else .ok (s, m, d)
  -- 8XY0: VX := VY
  else if n0 = 8 ∧ n3 = 0 then
    if n1 < 16 ∧ n2 < 16 then .ok ({ s with v := updf s.v n1 (s.reg n2) }, m, d)
    else .ok (s, m, d)
  -- 8XY1: VF := 0 first (before the index check), then VX := VX | VY
  else if n0 = 8 ∧ n3 = 1 then
    if n1 < 16 ∧ n2 < 16 then
      .ok ({ s with v := updf (updf s.v 15 0) n1 (Nat.lor (updf s.v 15 0 n1 % 256) (updf s.v 15 0 n2 % 256)) }, m, d)
    else .ok ({ s with v := updf s.v 15 0 }, m, d)
  -- 8XY2: VF := 0 first, then VX := VX & VY
  else if n0 = 8 ∧ n3 = 2 then
    if n1 < 16 ∧ n2 < 16 then
      .ok ({ s with v := updf (updf s.v 15 0) n1 (Nat.land (updf s.v 15 0 n1 % 256) (updf s.v 15 0 n2 % 256)) }, m, d)
    else .ok ({ s with v := updf s.v 15 0 }, m, d)
  -- 8XY3: VF := 0 first, then VX := VX ^ VY
  else if n0 = 8 ∧ n3 = 3 then
    if n1 < 16 ∧ n2 < 16 then
      .ok ({ s with v := updf (updf s.v 15 0) n1 (Nat.xor (updf s.v 15 0 n1 % 256) (updf s.v 15 0 n2 % 256)) }, m, d)
    else .ok ({ s with v := updf s.v 15 0 }, m, d)
  -- 8XY4: VX := VX + VY, then VF := carry (overwrites VX when X = 15)
  else if n0 = 8 ∧ n3 = 4 then
    if n1 < 16 ∧ n2 < 16 then
      .ok ({ s with v := updf (updf s.v n1 ((s.reg n1 + s.reg n2) % 256)) 15 (if 256 ≤ s.reg n1 + s.reg n2 then 1 else 0) }, m, d)
    else .ok (s, m, d)
  -- 8XY5: VX := VX - VY, then VF := NOT borrow
  else if n0 = 8 ∧ n3 = 5 then
    if n1 < 16 ∧ n2 < 16 then
      .ok ({ s with v := updf (updf s.v n1 ((s.reg n1 + 256 - s.reg n2) % 256)) 15 (if s.reg n1 < s.reg n2 then 0 else 1) }, m, d)
    else .ok (s, m, d)
  -- 8XY6: (VX := VY in SHIFT_SET_MODE), VX >>= 1, VF := shifted-out LSB
  else if n0 = 8 ∧ n3 = 6 then
    if n1 < 16 then
      .ok ({ s with v := updf (updf (shiftSrc s n1 n2) n1 (shiftSrc s n1 n2 n1 % 256 / 2)) 15 (shiftSrc s n1 n2 n1 % 256 % 2) }, m, d)
    else .ok (s, m, d)
  -- 8XY7: VX := VY - VX, then VF := NOT borrow
  else if n0 = 8 ∧ n3 = 7 then
    if n1 < 16 ∧ n2 < 16 then
      .ok ({ s with v := updf (updf s.v n1 ((s.reg n2 + 256 - s.reg n1) % 256)) 15 (if s.reg n2 < s.reg n1 then 0 else 1) }, m, d)
    else .ok (s, m, d)
  -- 8XYE: (VX := VY in SHIFT_SET_MODE), VX <<= 1, VF := shifted-out MSB
  else if n0 = 8 ∧ n3 = 0xE then
    if n1 < 16 then
      .ok ({ s with v := updf (updf (shiftSrc s n1 n2) n1 (shiftSrc s n1 n2 n1 % 256 * 2 % 256)) 15 (shiftSrc s n1 n2 n1 % 256 / 128) }, m, d)
    else .ok (s, m, d)
  -- 9XY0: skip if VX != VY
  else if n0 = 9 ∧ n3 = 0 then
    if n1 < 16 ∧ n2 < 16 ∧ s.reg n1 ≠ s.reg n2 then .ok ({ s with pc := w16 (s.pc + 2) }, m, d)
    else .ok (s, m, d)
  -- ANNN: I := NNN
  else if n0 = 0xA then
    .ok ({ s with i := n1 * 256 + n2 * 16 + n3 }, m, d)
  -- BNNN: jump to NNN + V0 (original behavior; JUMP_VX_MODE = false)
  else if n0 = 0xB then
    if JUMP_VX_MODE then
      .ok ({ s with pc := sub2_16 (n1 * 256 + n2 * 16 + n3 + s.reg n1) }, m, d)
    else
      .ok ({ s with pc := sub2_16 (n1 * 256 + n2 * 16 + n3 + s.reg 0) }, m, d)
  -- CXNN: VX := random byte & NN
  else if n0 = 0xC then
    if n1 < 16 then
      .ok ({ s with v := updf s.v n1 (Nat.land (rnd % 256) (n2 * 16 + n3)) }, m, d)
    else .ok (s, m, d)
  -- DXYN: draw sprite at (VX, VY), height N; VF := collision.
  -- VF is set to 0 before the loop and to 1 inside it on collision,
  -- so it ends as the collision indicator.
  else if n0 = 0xD then
    .ok ({ s with v := updf s.v 15 (if (drawOp s m d n1 n2 n3).2 then 1 else 0) }, m,
         ⟨(drawOp s m d n1 n2 n3).1⟩)
  -- EX9E: skip if key VX pressed (`keys[self.v[vx]]`, unmasked index)
  else if n0 = 0xE ∧ n2 = 9 ∧ n3 = 0xE then
    if n1 < 16 then
      match keyRead keys (s.reg n1) with
      | .error f => .error f
      | .ok b => .ok (if b then { s with pc := w16 (s.pc + 2) } else s, m, d)
    else .ok (s, m, d)
  -- EXA1: skip if key VX not pressed
  else if n0 = 0xE ∧ n2 = 0xA ∧ n3 = 1 then
    if n1 < 16 then
      match keyRead keys (s.reg n1) with
      | .error f => .error f
      | .ok b => .ok (if !b then { s with pc := w16 (s.pc + 2) } else s, m, d)
    else .ok (s, m, d)
  -- FX07: VX := delay timer
  else if n0 = 0xF ∧ n2 = 0 ∧ n3 = 7 then
    if n1 < 16 then .ok ({ s with v := updf s.v n1 (s.delay % 256) }, m, d)
    else .ok (s, m, d)
  -- FX0A: wait for key; if none pressed, pc -= 2 (instruction repeats)
  else if n0 = 0xF ∧ n2 = 0 ∧ n3 = 0xA then
    match firstKey keys with
    | some kv =>
      if n1 < 16 then .ok ({ s with v := updf s.v n1 kv }, m, d)
      else .ok (s, m, d)
    | none => .ok ({ s with pc := sub2_16 s.pc }, m, d)
  -- FX15: delay timer := VX
  else if n0 = 0xF ∧ n2 = 1 ∧ n3 = 5 then
    if n1 < 16 then .ok ({ s with delay := s.reg n1 }, m, d)
    else .ok (s, m, d)
  -- FX18: sound timer := VX
  else if n0 = 0xF ∧ n2 = 1 ∧ n3 = 8 then
    if n1 < 16 then .ok ({ s with sound := s.reg n1 }, m, d)
    else .ok (s, m, d)
  -- FX1E: I += VX (wrapping u16)
  else if n0 = 0xF ∧ n2 = 1 ∧ n3 = 0xE then
    if n1 < 16 then .ok ({ s with i := (s.i + s.reg n1) % 65536 }, m, d)
    else .ok (s, m, d)
  -- FX29: I := FONT_ADDRESS + VX  (note: the source does not multiply by 5)
  else if n0 = 0xF ∧ n2 = 2 ∧ n3 = 9 then
    if n1 < 16 then .ok ({ s with i := FONT_ADDRESS + s.reg n1 }, m, d)
    else .ok (s, m, d)
  -- FX33: BCD of VX at memory[i], memory[i+1], memory[i+2] (unchecked i)
  else if n0 = 0xF ∧ n2 = 3 ∧ n3 = 3 then
    if n1 < 16 then
      match m.write s.i (s.reg n1 / 100) with
      | .error f => .error f
      | .ok m1 =>
        match m1.write (s.i + 1) (s.reg n1 / 10 % 10) with
        | .error f => .error f
        | .ok m2 =>
          match m2.write (s.i + 2) (s.reg n1 % 10) with
          | .error f => .error f
          | .ok m3 => .ok (s, m3, d)
    else .ok (s, m, d)
  -- FX55: store V0..=VX at memory[i..], advancing I
  else if n0 = 0xF ∧ n2 = 5 ∧ n3 = 5 then
    if n1 < 16 then
      match storeRegs s.v 0 (n1 + 1) s.i m with
      | .error f => .error f
      | .ok r => .ok ({ s with i := r.2 }, r.1, d)
    else .ok (s, m, d)
  -- FX65: load V0..=VX from memory[i..], advancing I
  else if n0 = 0xF ∧ n2 = 6 ∧ n3 = 5 then
    if n1 < 16 then
      match loadRegs m 0 (n1 + 1) s.i s.v with
      | .error f => .error f
      | .ok r => .ok ({ s with v := r.1, i := r.2 }, m, d)
    else .ok (s, m, d)
  -- unknown opcode: logged, no effect
  else .ok (s, m, d)

/-- `CPU::decode` (src/cpu.rs): fetch the two opcode bytes at `pc`/`pc+1`
(unchecked indices), split into nibbles, execute, then `pc += 2`. -/
def CPU.step (s : CPU) (m : Memory) (d : Display) (keys : Nat → Bool) (rnd : Nat) :
    Except Fault (CPU × Memory × Display) :=
  match m.read s.pc with
  | .error f => .error f
  | .ok hi =>
    match m.read (s.pc + 1) with
    | .error f => .error f
    | .ok lo =>
      let op := hi * 256 + lo
      match execOp s m d keys rnd (op / 4096) (op / 256 % 16) (op / 16 % 16) (op % 16) with
      | .error f => .error f
      | .ok r => .ok ({ r.1 with pc := w16 (r.1.pc + 2) }, r.2.1, r.2.2)

/-- Sequential byte copy used by `Emulator::load_rom` / `Emulator::set_font`. -/
def writeBytes (m : Memory) (a : Nat) : List Nat → Memory
  | [] => m
  | b :: rest => writeBytes ⟨fun t => if t = a then b % 256 else m.data t⟩ (a + 1) rest

/-- `Emulator::load_rom` (src/emulator.rs): reject the ROM when
`rom.len() + ROM_ADDRESS > memory.data.len()`, else copy it in at
`ROM_ADDRESS`.  Returned pair: (result, memory afterwards). -/
def load_rom (m : Memory) (rom : List Nat) : Except String Unit × Memory :=
  if rom.length + ROM_ADDRESS > RAM_SIZE then
    (.error "ROM size exceeds available memory", m)
  else
    (.ok (), writeBytes m ROM_ADDRESS rom)

/-! Concrete machine states used by the closed evaluation theorems. -/

/-- All keys released. -/
def keys0 : Nat → Bool := fun _ => false

/-- Key 5 pressed, all others released. -/
def keys5 : Nat → Bool := fun j => j == 5

/-- Blank display. -/
def disp0 : Display := ⟨fun _ _ => false⟩

/-- Zeroed memory. -/
def mem0 : Memory := ⟨fun _ => 0⟩

/-- Reset CPU state (`CPU::new(ROM_ADDRESS)`). -/
def cpu0 : CPU := ⟨ROM_ADDRESS, 0, fun _ => 0, fun _ => 0, 0, 0, 0⟩

/-- Zeroed memory with `bytes` loaded at `ROM_ADDRESS`. -/
def memProg (bytes : List Nat) : Memory := writeBytes mem0 ROM_ADDRESS bytes

/-! Concrete states for the counterexamples and witnesses below. -/

def faultOf {α : Type} : Except Fault α → Option Fault
  | .error f => some f
  | .ok _ => none

def cpuSp15 : CPU := { cpu0 with sp := 15 }

def cpuPC4095 : CPU := { cpu0 with pc := 4095 }

def cpuV16 : CPU := { cpu0 with v := updf cpu0.v 0 16 }

def spr33 : List Nat := List.replicate 32 0 ++ [0x80]

def cpuC6 : CPU := { cpu0 with v := updf (updf cpu0.v 15 10) 0 5 }

def cpuC6w : CPU := { cpu0 with v := updf (updf cpu0.v 0 200) 1 100 }

def cpuC10 : CPU := { cpu0 with v := updf (updf cpu0.v 15 3) 0 5 }

def cpu4w : CPU := { cpu0 with v := updf cpu0.v 0 5 }

def cpuC10w : CPU := { cpu0 with v := updf (updf cpu0.v 1 12) 2 10 }

/-! Helper lemmas. -/

theorem ok_ne_error {α : Type} (a : α) (f : Fault) :
    (Except.ok a : Except Fault α) ≠ .error f :=
  fun h => Except.noConfusion h

theorem RAM_SIZE_eq : RAM_SIZE = 4096 := rfl

theorem storeRegs_isOk (v : Nat → Nat) :
    ∀ (fuel j i : Nat) (m : Memory), i + fuel ≤ RAM_SIZE →
      ∃ r, storeRegs v j fuel i m = .ok r := by
  intro fuel
  induction fuel with
  | zero => exact fun j i m _ => ⟨(m, i), rfl⟩
  | succ fuel ih =>
    intro j i m hle
    have hr := RAM_SIZE_eq
    rw [storeRegs, Memory.write, if_pos (show i < RAM_SIZE by omega)]
    simp only [show (i + 1) % 65536 = i + 1 by omega]
    exact ih (j + 1) (i + 1) _ (by omega)

theorem loadRegs_isOk (m : Memory) :
    ∀ (fuel j i : Nat) (v : Nat → Nat), i + fuel ≤ RAM_SIZE →
      ∃ r, loadRegs m j fuel i v = .ok r := by
  intro fuel
  induction fuel with
  | zero => exact fun j i v _ => ⟨(v, i), rfl⟩
  | succ fuel ih =>
    intro j i v hle
    have hr := RAM_SIZE_eq
    rw [loadRegs, Memory.read, if_pos (show i < RAM_SIZE by omega)]
    simp only [show (i + 1) % 65536 = i + 1 by omega]
    exact ih (j + 1) (i + 1) _ (by omega)

theorem step_eq (s : CPU) (m : Memory) (d : Display) (k : Nat → Bool) (rnd : Nat)
    (hpc : s.pc + 1 < RAM_SIZE) :
    CPU.step s m d k rnd =
      (match execOp s m d k rnd ((m.data s.pc % 256 * 256 + m.data (s.pc + 1) % 256) / 4096)
          ((m.data s.pc % 256 * 256 + m.data (s.pc + 1) % 256) / 256 % 16)
          ((m.data s.pc % 256 * 256 + m.data (s.pc + 1) % 256) / 16 % 16)
          ((m.data s.pc % 256 * 256 + m.data (s.pc + 1) % 256) % 16) with
       | .error f => .error f
       | .ok r => .ok ({ r.1 with pc := w16 (r.1.pc + 2) }, r.2.1, r.2.2)) := by
  rw [CPU.step, Memory.read, Memory.read,
    if_pos (show s.pc < RAM_SIZE by omega), if_pos (show s.pc + 1 < RAM_SIZE by omega)]

theorem step_opcode (s : CPU) (m : Memory) (d : Display) (k : Nat → Bool) (rnd : Nat)
    (hpc : s.pc + 1 < RAM_SIZE) (hi lo : Nat)
    (hhi : m.data s.pc % 256 = hi) (hlo : m.data (s.pc + 1) % 256 = lo) :
    CPU.step s m d k rnd =
      (match execOp s m d k rnd ((hi * 256 + lo) / 4096) ((hi * 256 + lo) / 256 % 16)
          ((hi * 256 + lo) / 16 % 16) ((hi * 256 + lo) % 16) with
       | .error f => .error f
       | .ok r => .ok ({ r.1 with pc := w16 (r.1.pc + 2) }, r.2.1, r.2.2)) := by
  rw [step_eq s m d k rnd hpc]
  simp only [hhi, hlo]

theorem execOp_8xy4_arm (s : CPU) (m : Memory) (d : Display) (k : Nat → Bool) (rnd x y : Nat) :
    execOp s m d k rnd 8 x y 4 =
      (if x < 16 ∧ y < 16 then
        .ok ({ s with v := updf (updf s.v x ((s.reg x + s.reg y) % 256)) 15 (if 256 ≤ s.reg x + s.reg y then 1 else 0) }, m, d)
      else .ok (s, m, d)) := by
  rw [execOp]; norm_num

theorem execOp_8xy1_arm (s : CPU) (m : Memory) (d : Display) (k : Nat → Bool) (rnd x y : Nat) :
    execOp s m d k rnd 8 x y 1 =
      (if x < 16 ∧ y < 16 then
        .ok ({ s with v := updf (updf s.v 15 0) x (Nat.lor (updf s.v 15 0 x % 256) (updf s.v 15 0 y % 256)) }, m, d)
      else .ok ({ s with v := updf s.v 15 0 }, m, d)) := by
  rw [execOp]; norm_num

theorem execOp_8xy2_arm (s : CPU) (m : Memory) (d : Display) (k : Nat → Bool) (rnd x y : Nat) :
    execOp s m d k rnd 8 x y 2 =
      (if x < 16 ∧ y < 16 then
        .ok ({ s with v := updf (updf s.v 15 0) x (Nat.land (updf s.v 15 0 x % 256) (updf s.v 15 0 y % 256)) }, m, d)
      else .ok ({ s with v := updf s.v 15 0 }, m, d)) := by
  rw [execOp]; norm_num

theorem execOp_8xy3_arm (s : CPU) (m : Memory) (d : Display) (k : Nat → Bool) (rnd x y : Nat) :
    execOp s m d k rnd 8 x y 3 =
      (if x < 16 ∧ y < 16 then
        .ok ({ s with v := updf (updf s.v 15 0) x (Nat.xor (updf s.v 15 0 x % 256) (updf s.v 15 0 y % 256)) }, m, d)
      else .ok ({ s with v := updf s.v 15 0 }, m, d)) := by
  rw [execOp]; norm_num

theorem execOp_ex9e_arm (s : CPU) (m : Memory) (d : Display) (k : Nat → Bool) (rnd x : Nat) :
    execOp s m d k rnd 14 x 9 14 =
      (if x < 16 then
        (match keyRead k (s.reg x) with
         | .error f => .error f
         | .ok b => .ok (if b then { s with pc := w16 (s.pc + 2) } else s, m, d))
      else .ok (s, m, d)) := by
  rw [execOp]; norm_num

theorem execOp_exa1_arm (s : CPU) (m : Memory) (d : Display) (k : Nat → Bool) (rnd x : Nat) :
    execOp s m d k rnd 14 x 10 1 =
      (if x < 16 then
        (match keyRead k (s.reg x) with
         | .error f => .error f
         | .ok b => .ok (if !b then { s with pc := w16 (s.pc + 2) } else s, m, d))
      else .ok (s, m, d)) := by
  rw [execOp]; norm_num

theorem execOp_fx0a_arm (s : CPU) (m : Memory) (d : Display) (k : Nat → Bool) (rnd x : Nat) :
    execOp s m d k rnd 15 x 0 10 =
      (match firstKey k with
       | some kv => if x < 16 then .ok ({ s with v := updf s.v x kv }, m, d) else .ok (s, m, d)
       | none => .ok ({ s with pc := sub2_16 s.pc }, m, d)) := by
  rw [execOp]; norm_num

theorem execOp_fx33_arm (s : CPU) (m : Memory) (d : Display) (k : Nat → Bool) (rnd x : Nat) :
    execOp s m d k rnd 15 x 3 3 =
      (if x < 16 then
        (match m.write s.i (s.reg x / 100) with
         | .error f => .error f
         | .ok m1 =>
           match m1.write (s.i + 1) (s.reg x / 10 % 10) with
           | .error f => .error f
           | .ok m2 =>
             match m2.write (s.i + 2) (s.reg x % 10) with
             | .error f => .error f
             | .ok m3 => .ok (s, m3, d))
      else .ok (s, m, d)) := by
  rw [execOp]; norm_num

theorem execOp_fx55_arm (s : CPU) (m : Memory) (d : Display) (k : Nat → Bool) (rnd x : Nat) :
    execOp s m d k rnd 15 x 5 5 =
      (if x < 16 then
        (match storeRegs s.v 0 (x + 1) s.i m with
         | .error f => .error f
         | .ok r => .ok ({ s with i := r.2 }, r.1, d))
      else .ok (s, m, d)) := by
  rw [execOp]; norm_num

theorem execOp_fx65_arm (s : CPU) (m : Memory) (d : Display) (k : Nat → Bool) (rnd x : Nat) :
    execOp s m d k rnd 15 x 6 5 =
      (if x < 16 then
        (match loadRegs m 0 (x + 1) s.i s.v with
         | .error f => .error f
         | .ok r => .ok ({ s with v := r.1, i := r.2 }, m, d))
      else .ok (s, m, d)) := by
  rw [execOp]; norm_num

theorem execOp_dxyn_arm (s : CPU) (m : Memory) (d : Display) (k : Nat → Bool) (rnd a b c : Nat) :
    execOp s m d k rnd 13 a b c =
      .ok ({ s with v := updf s.v 15 (if (drawOp s m d a b c).2 then 1 else 0) }, m,
           ⟨(drawOp s m d a b c).1⟩) := by
  rw [execOp]; norm_num

theorem writeBytes_other (rom : List Nat) : ∀ (a : Nat) (m : Memory) (t : Nat), t < a →
    (writeBytes m a rom).data t = m.data t := by
  induction rom with
  | nil => intro a m t _; rfl
  | cons b0 rest ih =>
    intro a m t ht
    rw [writeBytes, ih (a + 1) _ t (by omega)]
    exact if_neg (by omega)

theorem writeBytes_get (rom : List Nat) : ∀ (a : Nat) (m : Memory) (j b : Nat),
    rom.get? j = some b → (writeBytes m a rom).data (a + j) = b % 256 := by
  induction rom with
  | nil => intro a m j b h; simp at h
  | cons b0 rest ih =>
    intro a m j b h
    cases j with
    | zero =>
      simp only [List.get?_cons_zero, Option.some.injEq] at h
      rw [Nat.add_zero, writeBytes, writeBytes_other rest (a + 1) _ a (by omega)]
      simp [h]
    | succ j' =>
      rw [writeBytes, show a + (j' + 1) = (a + 1) + j' by omega]
      exact ih (a + 1) _ j' b (by simpa using h)

theorem find?_range'_lowest (p : Nat → Bool) :
    ∀ (n a j : Nat), (List.range' a n).find? p = some j →
      p j = true ∧ ∀ i, a ≤ i → i < j → p i = false := by
  intro n
  induction n with
  | zero => intro a j h; simp [List.range'] at h
  | succ n ih =>
    intro a j h
    rw [List.range'] at h
    by_cases hp : p a = true
    · rw [List.find?_cons_of_pos _ hp] at h
      obtain rfl : a = j := by injection h
      exact ⟨hp, fun i hai hij => False.elim (by omega)⟩
    · rw [List.find?_cons_of_neg _ hp] at h
      obtain ⟨h1, h2⟩ := ih (a + 1) j h
      refine ⟨h1, fun i hai hij => ?_⟩
      rcases Nat.eq_or_lt_of_le hai with rfl | hlt
      · simp only [Bool.not_eq_true] at hp
        exact hp
      · exact h2 i hlt hij

theorem firstKey_lowest (k : Nat → Bool) (j : Nat) (h : firstKey k = some j) :
    k j = true ∧ ∀ i, i < j → k i = false := by
  rw [firstKey, List.range_eq_range'] at h
  have hl := find?_range'_lowest (fun j => k j) 16 0 j h
  exact ⟨hl.1, fun i hij => hl.2 i (Nat.zero_le i) hij⟩

theorem blitCols_grid (byte x yrow : Nat) :
    ∀ (fuel col : Nat) (st : (Nat → Nat → Bool) × Bool) (p q : Nat),
      (blitCols byte x yrow col fuel st).1 p q
        = Bool.xor (st.1 p q) (colTog byte x yrow col fuel p q) := by
  intro fuel
  induction fuel with
  | zero => intro col st p q; simp [blitCols, colTog]
  | succ fuel ih =>
    intro col st p q
    rw [blitCols, colTog]
    by_cases hb : col > WIDTH
    · rw [if_pos hb, if_pos hb]; simp
    · rw [if_neg hb, if_neg hb, ih]
      by_cases hc : p = yrow % HEIGHT ∧ q = (x + col) % WIDTH
      · obtain ⟨hp, hq⟩ := hc
        subst hp
        subst hq
        simp [updPix, Bool.xor_assoc]
      · simp [updPix, hc]

theorem blitCols_snd_true (byte x yrow : Nat) :
    ∀ (fuel col : Nat) (g : Nat → Nat → Bool),
      (blitCols byte x yrow col fuel (g, true)).2 = true := by
  intro fuel
  induction fuel with
  | zero => intro col g; rfl
  | succ fuel ih =>
    intro col g
    rw [blitCols]
    by_cases hb : col > WIDTH
    · rw [if_pos hb]
    · rw [if_neg hb]
      simp only [ite_self]
      exact ih (col + 1) _

theorem blitCols_snd_catch (byte x yrow : Nat) :
    ∀ (fuel col : Nat) (g : Nat → Nat → Bool) (e : Bool) (p q : Nat),
      g p q = true → colTog byte x yrow col fuel p q = true →
      (blitCols byte x yrow col fuel (g, e)).2 = true := by
  intro fuel
  induction fuel with
  | zero => intro col g e p q _ hct; simp [colTog] at hct
  | succ fuel ih =>
    intro col g e p q hg hct
    rw [colTog] at hct
    rw [blitCols]
    by_cases hb : col > WIDTH
    · rw [if_pos hb] at hct
      exact absurd hct (by simp)
    · rw [if_neg hb] at hct
      rw [if_neg hb]
      by_cases hc : p = yrow % HEIGHT ∧ q = (x + col) % WIDTH
      · obtain ⟨hp, hq⟩ := hc
        subst hp
        subst hq
        by_cases hbit : spriteBit byte col = true
        · rw [show (if g (yrow % HEIGHT) ((x + col) % WIDTH) && spriteBit byte col then true
              else e) = true by simp [hg, hbit]]
          exact blitCols_snd_true byte x yrow fuel (col + 1) _
        · simp only [Bool.not_eq_true] at hbit
          simp only [hbit, Bool.and_false, Bool.false_xor] at hct
          refine ih (col + 1) _ _ (yrow % HEIGHT) ((x + col) % WIDTH) ?_ hct
          simp [updPix, hbit, hg]
      · simp only [decide_eq_true_eq] at *
        simp only [decide_eq_false hc, Bool.false_and, Bool.false_xor] at hct
        refine ih (col + 1) _ _ p q ?_ hct
        simp [updPix, hc, hg]

theorem drawRows_grid (sprite : List Nat) (x y : Nat) :
    ∀ (fuel row : Nat) (st : (Nat → Nat → Bool) × Bool) (g' : Nat → Nat → Bool) (e' : Bool),
      drawRows sprite x y row fuel st = some (g', e') →
      ∀ p q, g' p q = Bool.xor (st.1 p q) (rowTog sprite x y row fuel p q) := by
  intro fuel
  induction fuel with
  | zero =>
    intro row st g' e' h p q
    rw [drawRows] at h
    injection h with h2
    subst h2
    simp [rowTog]
  | succ fuel ih =>
    intro row st g' e' h p q
    rw [drawRows] at h
    rw [rowTog]
    by_cases hbr : row > HEIGHT
    · rw [if_pos hbr] at h
      rw [if_pos hbr]
      injection h with h2
      subst h2
      simp
    · rw [if_neg hbr] at h
      rw [if_neg hbr]
      cases hsp : sprite.get? row with
      | none =>
        rw [hsp] at h
        exact absurd h (by simp)
      | some byte =>
        rw [hsp] at h
        rw [ih (row + 1) _ g' e' h p q, blitCols_grid, Bool.xor_assoc]

theorem drawRows_snd_true (sprite : List Nat) (x y : Nat) :
    ∀ (fuel row : Nat) (g g' : Nat → Nat → Bool) (e' : Bool),
      drawRows sprite x y row fuel (g, true) = some (g', e') → e' = true := by
  intro fuel
  induction fuel with
  | zero =>
    intro row g g' e' h
    rw [drawRows] at h
    injection h with h2
    exact (congrArg Prod.snd h2).symm
  | succ fuel ih =>
    intro row g g' e' h
    rw [drawRows] at h
    by_cases hbr : row > HEIGHT
    · rw [if_pos hbr] at h
      injection h with h2
      exact (congrArg Prod.snd h2).symm
    · rw [if_neg hbr] at h
      cases hsp : sprite.get? row with
      | none =>
        rw [hsp] at h
        exact absurd h (by simp)
      | some byte =>
        rw [hsp] at h
        have h2 : drawRows sprite x y (row + 1) fuel
            (blitCols (byte % 256) x (y + row) 0 8 (g, true)) = some (g', e') := h
        rw [show blitCols (byte % 256) x (y + row) 0 8 (g, true)
            = ((blitCols (byte % 256) x (y + row) 0 8 (g, true)).1, true) from
          Prod.ext rfl (blitCols_snd_true (byte % 256) x (y + row) 8 0 g)] at h2
        exact ih (row + 1) _ g' e' h2

theorem drawRows_snd_catch (sprite : List Nat) (x y : Nat) :
    ∀ (fuel row : Nat) (g : Nat → Nat → Bool) (e : Bool) (g' : Nat → Nat → Bool) (e' : Bool)
      (p q : Nat),
      g p q = true → rowTog sprite x y row fuel p q = true →
      drawRows sprite x y row fuel (g, e) = some (g', e') → e' = true := by
  intro fuel
  induction fuel with
  | zero => intro row g e g' e' p q _ hrt _; simp [rowTog] at hrt
  | succ fuel ih =>
    intro row g e g' e' p q hg hrt h
    rw [rowTog] at hrt
    rw [drawRows] at h
    by_cases hbr : row > HEIGHT
    · rw [if_pos hbr] at hrt
      exact absurd hrt (by simp)
    · rw [if_neg hbr] at hrt
      rw [if_neg hbr] at h
      cases hsp : sprite.get? row with
      | none =>
        rw [hsp] at h
        exact absurd h (by simp)
      | some byte =>
        rw [hsp] at hrt
        rw [hsp] at h
        have h2 : drawRows sprite x y (row + 1) fuel
            (blitCols (byte % 256) x (y + row) 0 8 (g, e)) = some (g', e') := h
        by_cases hct : colTog (byte % 256) x (y + row) 0 8 p q = true
        · rw [show blitCols (byte % 256) x (y + row) 0 8 (g, e)
              = ((blitCols (byte % 256) x (y + row) 0 8 (g, e)).1, true) from
            Prod.ext rfl (blitCols_snd_catch (byte % 256) x (y + row) 8 0 g e p q hg hct)] at h2
          exact drawRows_snd_true sprite x y fuel (row + 1) _ g' e' h2
        · simp only [Bool.not_eq_true] at hct
          simp only [hct, Bool.false_xor] at hrt
          refine ih (row + 1) (blitCols (byte % 256) x (y + row) 0 8 (g, e)).1
            (blitCols (byte % 256) x (y + row) 0 8 (g, e)).2 g' e' p q ?_ hrt ?_
          · rw [blitCols_grid]
            show (g p q ^^ colTog (byte % 256) x (y + row) 0 8 p q) = true
            rw [hg, hct]
            decide
          · exact h2

/-! Claim theorems. -/

/-- C1: running `60 0A` then `F0 29` from reset leaves the index pointer at
`FONT_ADDRESS + 10`, not `FONT_ADDRESS + 5 * 10`: the `FX29` arm adds the
register value without multiplying by the 5-byte glyph size. -/
theorem fx29_font_offset_bug :
    (match CPU.step cpu0 (memProg [0x60, 0x0A, 0xF0, 0x29]) disp0 keys0 0 with
     | .ok r => (CPU.step r.1 r.2.1 r.2.2 keys0 0).toOption.map fun r2 => r2.1.i
     | .error _ => none)
      = some (FONT_ADDRESS + 10) ∧ FONT_ADDRESS + 10 ≠ FONT_ADDRESS + 5 * 10 := by
  decide

/-- C2: with 15 return addresses pushed, a 16th `2NNN` call is rejected by
the `sp < 15` guard: `sp` stays 15 and `pc` just advances past the call even
though `stack[15]` is still free, so nesting depth 16 is not reachable. -/
theorem call_rejected_at_depth15 :
    (CPU.step cpuSp15 (memProg [0x23, 0x00]) disp0 keys0 0).toOption.map
        (fun r => (r.1.sp, r.1.pc, r.1.stack 15))
      = some (15, 514, 0) ∧ ((15 : Nat), (514 : Nat)) ≠ (16, 768) := by
  decide

/-- C3 counterexample: with `pc = 4095`, fetching the second opcode byte
indexes `memory.data[4096]`, out of range (a panic): the fetch address is
not reduced modulo the capacity as the claim states. -/
theorem fetch_oob_at_pc4095 :
    faultOf (CPU.step cpuPC4095 mem0 disp0 keys0 0) = some .memOOB := by decide

/-- C3 (amended): the accesses the claim enumerates are in range under
explicit bounds rather than by modulo reduction: the fetch at `pc`/`pc+1`
succeeds when `pc + 1 < 4096`; the BCD writes (`FX33`) and the bulk register
store/load (`FX55`/`FX65`) do not go out of range when `i ≤ 4080`; and a
draw (`DXYN`) never faults because its sprite reads are the one site the
source reduces modulo the capacity. -/
theorem mem_access_sites_in_range (s : CPU) (m : Memory) (d : Display) (k : Nat → Bool)
    (rnd x : Nat) (hx : x < 16) (hpc : s.pc + 1 < RAM_SIZE) (hi2 : s.i ≤ 4080) :
    m.read s.pc = .ok (m.data s.pc % 256)
    ∧ m.read (s.pc + 1) = .ok (m.data (s.pc + 1) % 256)
    ∧ (m.data s.pc % 256 = 240 + x → m.data (s.pc + 1) % 256 = 0x33 →
        CPU.step s m d k rnd ≠ .error .memOOB)
    ∧ (m.data s.pc % 256 = 240 + x → m.data (s.pc + 1) % 256 = 0x55 →
        CPU.step s m d k rnd ≠ .error .memOOB)
    ∧ (m.data s.pc % 256 = 240 + x → m.data (s.pc + 1) % 256 = 0x65 →
        CPU.step s m d k rnd ≠ .error .memOOB)
    ∧ (∀ lo, m.data s.pc % 256 = 208 + x → m.data (s.pc + 1) % 256 = lo →
        ∃ r, CPU.step s m d k rnd = .ok r) := by
  have hr := RAM_SIZE_eq
  refine ⟨?_, ?_, ?_, ?_, ?_, ?_⟩
  · rw [Memory.read, if_pos (show s.pc < RAM_SIZE by omega)]
  · rw [Memory.read, if_pos hpc]
  · intro hhi hlo
    rw [step_opcode s m d k rnd hpc _ _ hhi hlo,
      show ((240 + x) * 256 + 51) / 4096 = 15 by omega,
      show ((240 + x) * 256 + 51) / 256 % 16 = x by omega,
      show ((240 + x) * 256 + 51) / 16 % 16 = 3 by omega,
      show ((240 + x) * 256 + 51) % 16 = 3 by omega,
      execOp_fx33_arm, if_pos hx]
    simp only [Memory.write, if_pos (show s.i < RAM_SIZE by omega),
      if_pos (show s.i + 1 < RAM_SIZE by omega), if_pos (show s.i + 2 < RAM_SIZE by omega)]
    exact ok_ne_error _ _
  · intro hhi hlo
    rw [step_opcode s m d k rnd hpc _ _ hhi hlo,
      show ((240 + x) * 256 + 85) / 4096 = 15 by omega,
      show ((240 + x) * 256 + 85) / 256 % 16 = x by omega,
      show ((240 + x) * 256 + 85) / 16 % 16 = 5 by omega,
      show ((240 + x) * 256 + 85) % 16 = 5 by omega,
      execOp_fx55_arm, if_pos hx]
    obtain ⟨r, hk⟩ := storeRegs_isOk s.v (x + 1) 0 s.i m (by omega)
    rw [hk]
    exact ok_ne_error _ _
  · intro hhi hlo
    rw [step_opcode s m d k rnd hpc _ _ hhi hlo,
      show ((240 + x) * 256 + 101) / 4096 = 15 by omega,
      show ((240 + x) * 256 + 101) / 256 % 16 = x by omega,
      show ((240 + x) * 256 + 101) / 16 % 16 = 6 by omega,
      show ((240 + x) * 256 + 101) % 16 = 5 by omega,
      execOp_fx65_arm, if_pos hx]
    obtain ⟨r, hk⟩ := loadRegs_isOk m (x + 1) 0 s.i s.v (by omega)
    rw [hk]
    exact ok_ne_error _ _
  · intro lo hhi hlo
    have hlt : lo < 256 := by rw [← hlo]; exact Nat.mod_lt _ (by norm_num)
    rw [step_opcode s m d k rnd hpc _ _ hhi hlo,
      show ((208 + x) * 256 + lo) / 4096 = 13 by omega,
      execOp_dxyn_arm]
    exact ⟨_, rfl⟩

/-- Witness for `mem_access_sites_in_range` at the reset state running
`F0 55`. -/
theorem mem_access_sites_in_range_witness :
    cpu0.pc + 1 < RAM_SIZE ∧ cpu0.i ≤ 4080 ∧
      CPU.step cpu0 (memProg [0xF0, 0x55]) disp0 keys0 0 ≠ .error .memOOB := by
  refine ⟨by decide, by decide, ?_⟩
  exact (mem_access_sites_in_range cpu0 (memProg [0xF0, 0x55]) disp0 keys0 0 0
    (by decide) (by decide) (by decide)).2.2.2.1 (by decide) (by decide)

/-- C4 counterexample: with `v[0] = 16`, executing `E0 9E` indexes the
16-entry key vector at 16 (a panic): the register value is not masked to
its low nibble before the lookup. -/
theorem skip_key_oob_at_16 :
    faultOf (CPU.step cpuV16 (memProg [0xE0, 0x9E]) disp0 keys0 0) = some .keyOOB := by decide

/-- C4 (amended): `EX9E`/`EXA1` compare the full register value (not its
low nibble) against the key vector; when that value is below 16 the access
is in bounds and the instruction skips exactly on pressed / not pressed. -/
theorem skip_key_low_values_safe (s : CPU) (m : Memory) (d : Display) (k : Nat → Bool)
    (rnd x : Nat) (hx : x < 16) (hpc : s.pc + 1 < RAM_SIZE) (hreg : s.reg x < 16)
    (hhi : m.data s.pc % 256 = 224 + x) :
    (m.data (s.pc + 1) % 256 = 0x9E →
      CPU.step s m d k rnd = .ok ({ s with pc := s.pc + 2 + (if k (s.reg x) then 2 else 0) }, m, d))
    ∧ (m.data (s.pc + 1) % 256 = 0xA1 →
      CPU.step s m d k rnd = .ok ({ s with pc := s.pc + 2 + (if k (s.reg x) then 0 else 2) }, m, d)) := by
  have hr := RAM_SIZE_eq
  constructor
  · intro hlo
    rw [step_opcode s m d k rnd hpc _ _ hhi hlo,
      show ((224 + x) * 256 + 158) / 4096 = 14 by omega,
      show ((224 + x) * 256 + 158) / 256 % 16 = x by omega,
      show ((224 + x) * 256 + 158) / 16 % 16 = 9 by omega,
      show ((224 + x) * 256 + 158) % 16 = 14 by omega,
      execOp_ex9e_arm, if_pos hx, keyRead, if_pos hreg]
    cases hk : k (s.reg x) <;> simp [w16, CPU.mk.injEq] <;> omega
  · intro hlo
    rw [step_opcode s m d k rnd hpc _ _ hhi hlo,
      show ((224 + x) * 256 + 161) / 4096 = 14 by omega,
      show ((224 + x) * 256 + 161) / 256 % 16 = x by omega,
      show ((224 + x) * 256 + 161) / 16 % 16 = 10 by omega,
      show ((224 + x) * 256 + 161) % 16 = 1 by omega,
      execOp_exa1_arm, if_pos hx, keyRead, if_pos hreg]
    cases hk : k (s.reg x) <;> simp [w16, CPU.mk.injEq] <;> omega

/-- Witness for `skip_key_low_values_safe`: `E0 9E` with `v[0] = 5` and
key 5 pressed skips the next instruction. -/
theorem skip_key_low_values_safe_witness :
    CPU.step cpu4w (memProg [0xE0, 0x9E]) disp0 keys5 0
      = .ok ({ cpu4w with pc := 516 }, memProg [0xE0, 0x9E], disp0) := by
  have h := (skip_key_low_values_safe cpu4w (memProg [0xE0, 0x9E]) disp0 keys5 0 0
    (by decide) (by decide) (by decide) (by decide)).1 (by decide)
  exact h

set_option maxRecDepth 4000 in
/-- C5: the row bound `row > height` is off by one: drawing a 33-row sprite
whose rows 0..31 are all zero and whose row 32 is `0x80` turns on pixel
(0, 0) — row 32 is drawn and wraps to the top instead of being skipped. -/
theorem sprite_row32_drawn_wraps :
    (disp0.draw_sprite 0 0 33 spr33).map (fun r => r.1.pixels 0 0) = some true := by decide

/-- C6 counterexample: `8F 04` with `v[15] = 10`, `v[0] = 5` leaves
`v[15] = 0` (the carry), not the sum 15: for X = 15 the carry write
overwrites the stored sum, so the claim fails at X = 15. -/
theorem add_carry_vf_overwrite :
    (CPU.step cpuC6 (memProg [0x8F, 0x04]) disp0 keys0 0).toOption.map (fun r => r.1.v 15)
      = some 0 ∧ (0 : Nat) ≠ (10 + 5) % 256 := by decide

/-- C6 (amended): for X ≠ 15, `8XY4` stores `(v[X] + v[Y]) mod 256` in
`v[X]`, sets `v[15]` to 1 exactly when the unsigned sum exceeds 255 and to
0 otherwise, and `pc` advances by one instruction width. -/
theorem add_with_carry_spec (s : CPU) (m : Memory) (d : Display) (k : Nat → Bool)
    (rnd x y : Nat) (hx : x < 16) (hy : y < 16) (hxF : x ≠ 15)
    (hpc : s.pc + 1 < RAM_SIZE)
    (hhi : m.data s.pc % 256 = 128 + x)
    (hlo : m.data (s.pc + 1) % 256 = y * 16 + 4) :
    ∃ s', CPU.step s m d k rnd = .ok (s', m, d) ∧
      s'.v x = (s.reg x + s.reg y) % 256 ∧
      s'.v 15 = (if 256 ≤ s.reg x + s.reg y then 1 else 0) ∧
      s'.pc = s.pc + 2 := by
  have hr := RAM_SIZE_eq
  have h := step_opcode s m d k rnd hpc _ _ hhi hlo
  rw [show ((128 + x) * 256 + (y * 16 + 4)) / 4096 = 8 by omega,
    show ((128 + x) * 256 + (y * 16 + 4)) / 256 % 16 = x by omega,
    show ((128 + x) * 256 + (y * 16 + 4)) / 16 % 16 = y by omega,
    show ((128 + x) * 256 + (y * 16 + 4)) % 16 = 4 by omega,
    execOp_8xy4_arm, if_pos ⟨hx, hy⟩] at h
  have hw : w16 (s.pc + 2) = s.pc + 2 := by simp only [w16]; omega
  refine ⟨{ s with v := updf (updf s.v x ((s.reg x + s.reg y) % 256)) 15 (if 256 ≤ s.reg x + s.reg y then 1 else 0), pc := w16 (s.pc + 2) }, ?_, ?_, ?_, hw⟩
  · exact h
  · simp [updf, hxF]
  · simp [updf, Ne.symm hxF]

/-- Witness for `add_with_carry_spec`: `80 14` with `v[0] = 200`,
`v[1] = 100` gives `v[0] = 44` and carry 1. -/
theorem add_with_carry_spec_witness :
    ∃ s', CPU.step cpuC6w (memProg [0x80, 0x14]) disp0 keys0 0
        = .ok (s', memProg [0x80, 0x14], disp0) ∧
      s'.v 0 = 44 ∧ s'.v 15 = 1 ∧ s'.pc = 514 := by
  obtain ⟨s', h1, h2, h3, h4⟩ := add_with_carry_spec cpuC6w (memProg [0x80, 0x14]) disp0 keys0 0
    0 1 (by decide) (by decide) (by decide) (by decide) (by decide) (by decide)
  refine ⟨s', h1, ?_, ?_, ?_⟩
  · rw [h2]; decide
  · rw [h3]; decide
  · rw [h4]; decide

/-- C7: drawing the same sprite twice at the same position restores the
display exactly (the XOR blit is an involution), and the second draw
reports a collision whenever the first draw turned a pixel on (a position
the sprite's set bits cover again on the second pass). -/
theorem draw_twice_involution (d : Display) (x y n : Nat) (sprite : List Nat)
    (d1 d2 : Display) (c1 c2 : Bool)
    (h1 : d.draw_sprite x y n sprite = some (d1, c1))
    (h2 : d1.draw_sprite x y n sprite = some (d2, c2)) :
    d2 = d ∧ (∀ p q, d.pixels p q = false → d1.pixels p q = true → c2 = true) := by
  rw [Display.draw_sprite] at h1 h2
  cases hr1 : drawRows sprite x y 0 n (d.pixels, false) with
  | none => rw [hr1] at h1; exact absurd h1 (by simp)
  | some st1 =>
    rw [hr1] at h1
    simp only [Option.map_some', Option.some.injEq] at h1
    injection h1 with hd1 hc1
    have hp1 : d1.pixels = st1.1 := by rw [← hd1]
    cases hr2 : drawRows sprite x y 0 n (d1.pixels, false) with
    | none => rw [hr2] at h2; exact absurd h2 (by simp)
    | some st2 =>
      rw [hr2] at h2
      simp only [Option.map_some', Option.some.injEq] at h2
      injection h2 with hd2 hc2
      have hinv : ∀ p q, st2.1 p q = d.pixels p q := by
        intro p q
        rw [drawRows_grid sprite x y n 0 _ st2.1 st2.2 hr2 p q]
        show (d1.pixels p q ^^ rowTog sprite x y 0 n p q) = d.pixels p q
        rw [hp1, drawRows_grid sprite x y n 0 _ st1.1 st1.2 hr1 p q]
        show ((d.pixels p q ^^ rowTog sprite x y 0 n p q) ^^ rowTog sprite x y 0 n p q)
          = d.pixels p q
        rw [Bool.xor_assoc, Bool.xor_self, Bool.xor_false]
      have hpix : d2.pixels = d.pixels := by
        rw [← hd2]
        exact funext fun p => funext fun q => hinv p q
      refine ⟨?_, ?_⟩
      · exact congrArg Display.mk hpix
      · intro p q hp0 hq1
        have hgl := drawRows_grid sprite x y n 0 _ st1.1 st1.2 hr1 p q
        have hst1 : st1.1 p q = true := by rw [← hp1]; exact hq1
        have hT : rowTog sprite x y 0 n p q = true := by
          rw [hst1] at hgl
          have hx2 : (d.pixels p q ^^ rowTog sprite x y 0 n p q) = true := hgl.symm
          rw [hp0] at hx2
          simpa using hx2
        rw [← hc2]
        exact drawRows_snd_catch sprite x y n 0 d1.pixels false st2.1 st2.2 p q hq1 hT hr2

/-- Witness for `draw_twice_involution`: a one-row sprite `0x80` drawn
twice on the blank display at (0, 0). -/
theorem draw_twice_involution_witness :
    ∃ (d1 d2 : Display) (c1 c2 : Bool),
      disp0.draw_sprite 0 0 1 [128] = some (d1, c1) ∧
      d1.draw_sprite 0 0 1 [128] = some (d2, c2) ∧
      d2 = disp0 ∧ c2 = true := by
  refine ⟨_, _, _, _, rfl, rfl, ?_, ?_⟩
  · exact (draw_twice_involution disp0 0 0 1 [128] _ _ _ _ rfl rfl).1
  · exact (draw_twice_involution disp0 0 0 1 [128] _ _ _ _ rfl rfl).2 0 0 rfl rfl

/-- C8: `load_rom` fails exactly when `rom.len() + 0x200 > 4096`; on
failure the memory is the one passed in, byte for byte, and on success the
ROM bytes appear verbatim from offset 0x200. -/
theorem load_rom_spec (m : Memory) (rom : List Nat) :
    (rom.length + ROM_ADDRESS > RAM_SIZE →
        load_rom m rom = (.error "ROM size exceeds available memory", m))
    ∧ (rom.length + ROM_ADDRESS ≤ RAM_SIZE →
        (load_rom m rom).1 = .ok () ∧
        ∀ j b, rom.get? j = some b → (load_rom m rom).2.data (ROM_ADDRESS + j) = b % 256) := by
  constructor
  · intro h; rw [load_rom, if_pos h]
  · intro h
    rw [load_rom, if_neg (by omega)]
    exact ⟨rfl, fun j b hb => writeBytes_get rom ROM_ADDRESS m j b hb⟩

/-- Witness for `load_rom_spec` on the 3-byte ROM `[1, 2, 3]`. -/
theorem load_rom_spec_witness :
    (load_rom mem0 [1, 2, 3]).1 = .ok () ∧
    (load_rom mem0 [1, 2, 3]).2.data (ROM_ADDRESS + 2) = 3 % 256 := by
  have h := (load_rom_spec mem0 [1, 2, 3]).2 (by decide)
  exact ⟨h.1, h.2 2 3 rfl⟩

/-- C9: `FX0A` leaves `pc` unchanged over the cycle when no key is pressed
(the instruction repeats), and when a key is pressed it stores the lowest
pressed index in `VX` and advances `pc` by exactly one instruction width. -/
theorem wait_key_spec (s : CPU) (m : Memory) (d : Display) (k : Nat → Bool) (rnd x : Nat)
    (hx : x < 16) (hpc : s.pc + 1 < RAM_SIZE)
    (hhi : m.data s.pc % 256 = 240 + x) (hlo : m.data (s.pc + 1) % 256 = 0x0A) :
    (firstKey k = none → CPU.step s m d k rnd = .ok (s, m, d))
    ∧ (∀ j, firstKey k = some j →
        CPU.step s m d k rnd = .ok ({ s with v := updf s.v x j, pc := s.pc + 2 }, m, d)
        ∧ k j = true ∧ ∀ i, i < j → k i = false) := by
  have hr := RAM_SIZE_eq
  have h := step_opcode s m d k rnd hpc _ _ hhi hlo
  rw [show ((240 + x) * 256 + 10) / 4096 = 15 by omega,
    show ((240 + x) * 256 + 10) / 256 % 16 = x by omega,
    show ((240 + x) * 256 + 10) / 16 % 16 = 0 by omega,
    show ((240 + x) * 256 + 10) % 16 = 10 by omega,
    execOp_fx0a_arm] at h
  constructor
  · intro hnone
    rw [hnone] at h
    rw [h]
    show Except.ok ({ s with pc := w16 (sub2_16 s.pc + 2) }, m, d) = .ok (s, m, d)
    rw [show w16 (sub2_16 s.pc + 2) = s.pc by simp only [w16, sub2_16]; omega]
  · intro j hsome
    rw [hsome] at h
    simp only [if_pos hx] at h
    have hkl := firstKey_lowest k j hsome
    refine ⟨?_, hkl.1, hkl.2⟩
    rw [h]
    show Except.ok ({ s with v := updf s.v x j, pc := w16 (s.pc + 2) }, m, d) = _
    rw [show w16 (s.pc + 2) = s.pc + 2 by simp only [w16]; omega]

/-- Witness for `wait_key_spec`: `F0 0A` with no key pressed (pc stays
put) and with key 5 pressed (`v[0] = 5`, pc advances by 2). -/
theorem wait_key_spec_witness :
    CPU.step cpu0 (memProg [0xF0, 0x0A]) disp0 keys0 0 = .ok (cpu0, memProg [0xF0, 0x0A], disp0)
    ∧ CPU.step cpu0 (memProg [0xF0, 0x0A]) disp0 keys5 0
        = .ok ({ cpu0 with v := updf cpu0.v 0 5, pc := cpu0.pc + 2 }, memProg [0xF0, 0x0A], disp0) := by
  constructor
  · exact (wait_key_spec cpu0 (memProg [0xF0, 0x0A]) disp0 keys0 0 0 (by decide) (by decide)
      (by decide) (by decide)).1 (by decide)
  · exact ((wait_key_spec cpu0 (memProg [0xF0, 0x0A]) disp0 keys5 0 0 (by decide) (by decide)
      (by decide) (by decide)).2 5 (by decide)).1

/-- C10 counterexample: `8F 01` with `v[15] = 3`, `v[0] = 5` yields
`v[15] = 5` — neither the claimed flag value 0 nor the claimed stored
result `3 ||| 5 = 7` — because `v[F]` is zeroed before the OR and X = 15
aliases the flags register. -/
theorem bitop_vf_target_cex :
    (CPU.step cpuC10 (memProg [0x8F, 0x01]) disp0 keys0 0).toOption.map (fun r => r.1.v 15)
      = some 5 ∧ (5 : Nat) ≠ 0 ∧ (5 : Nat) ≠ Nat.lor 3 5 := by decide

/-- C10 (amended): for X ≠ 15 and Y ≠ 15, `8XY1`/`8XY2`/`8XY3` zero the
flags register and store the bitwise OR/AND/XOR of the original operands
in `v[X]`; when X or Y is 15 the pre-zeroed flags register takes part in
the operation instead. -/
theorem bitop_zero_flags (s : CPU) (m : Memory) (d : Display) (k : Nat → Bool)
    (rnd x y t : Nat) (hx : x < 16) (hy : y < 16) (hxF : x ≠ 15) (hyF : y ≠ 15)
    (ht : t = 1 ∨ t = 2 ∨ t = 3) (hpc : s.pc + 1 < RAM_SIZE)
    (hhi : m.data s.pc % 256 = 128 + x)
    (hlo : m.data (s.pc + 1) % 256 = y * 16 + t) :
    ∃ s', CPU.step s m d k rnd = .ok (s', m, d) ∧ s'.v 15 = 0 ∧ s'.pc = s.pc + 2 ∧
      s'.v x = (if t = 1 then Nat.lor (s.reg x) (s.reg y)
                else if t = 2 then Nat.land (s.reg x) (s.reg y)
                else Nat.xor (s.reg x) (s.reg y)) := by
  have hr := RAM_SIZE_eq
  have hw : w16 (s.pc + 2) = s.pc + 2 := by simp only [w16]; omega
  rcases ht with rfl | rfl | rfl
  · have h := step_opcode s m d k rnd hpc _ _ hhi hlo
    rw [show ((128 + x) * 256 + (y * 16 + 1)) / 4096 = 8 by omega,
      show ((128 + x) * 256 + (y * 16 + 1)) / 256 % 16 = x by omega,
      show ((128 + x) * 256 + (y * 16 + 1)) / 16 % 16 = y by omega,
      show ((128 + x) * 256 + (y * 16 + 1)) % 16 = 1 by omega,
      execOp_8xy1_arm, if_pos ⟨hx, hy⟩] at h
    refine ⟨{ s with v := updf (updf s.v 15 0) x (Nat.lor (updf s.v 15 0 x % 256) (updf s.v 15 0 y % 256)), pc := w16 (s.pc + 2) }, h, ?_, hw, ?_⟩
    · simp [updf, Ne.symm hxF]
    · simp [updf, hxF, hyF, CPU.reg]
  · have h := step_opcode s m d k rnd hpc _ _ hhi hlo
    rw [show ((128 + x) * 256 + (y * 16 + 2)) / 4096 = 8 by omega,
      show ((128 + x) * 256 + (y * 16 + 2)) / 256 % 16 = x by omega,
      show ((128 + x) * 256 + (y * 16 + 2)) / 16 % 16 = y by omega,
      show ((128 + x) * 256 + (y * 16 + 2)) % 16 = 2 by omega,
      execOp_8xy2_arm, if_pos ⟨hx, hy⟩] at h
    refine ⟨{ s with v := updf (updf s.v 15 0) x (Nat.land (updf s.v 15 0 x % 256) (updf s.v 15 0 y % 256)), pc := w16 (s.pc + 2) }, h, ?_, hw, ?_⟩
    · simp [updf, Ne.symm hxF]
    · simp [updf, hxF, hyF, CPU.reg]
  · have h := step_opcode s m d k rnd hpc _ _ hhi hlo
    rw [show ((128 + x) * 256 + (y * 16 + 3)) / 4096 = 8 by omega,
      show ((128 + x) * 256 + (y * 16 + 3)) / 256 % 16 = x by omega,
      show ((128 + x) * 256 + (y * 16 + 3)) / 16 % 16 = y by omega,
      show ((128 + x) * 256 + (y * 16 + 3)) % 16 = 3 by omega,
      execOp_8xy3_arm, if_pos ⟨hx, hy⟩] at h
    refine ⟨{ s with v := updf (updf s.v 15 0) x (Nat.xor (updf s.v 15 0 x % 256) (updf s.v 15 0 y % 256)), pc := w16 (s.pc + 2) }, h, ?_, hw, ?_⟩
    · simp [updf, Ne.symm hxF]
    · simp [updf, hxF, hyF, CPU.reg]

/-- Witness for `bitop_zero_flags`: `81 21` (OR) with `v[1] = 12`,
`v[2] = 10` gives `v[1] = 14` and `v[15] = 0`. -/
theorem bitop_zero_flags_witness :
    ∃ s', CPU.step cpuC10w (memProg [0x81, 0x21]) disp0 keys0 0
        = .ok (s', memProg [0x81, 0x21], disp0)
      ∧ s'.v 15 = 0 ∧ s'.pc = 514 ∧ s'.v 1 = 14 := by
  obtain ⟨s', h1, h2, h3, h4⟩ := bitop_zero_flags cpuC10w (memProg [0x81, 0x21]) disp0 keys0 0
    1 2 1 (by decide) (by decide) (by decide) (by decide) (Or.inl rfl) (by decide) (by decide)
    (by decide)
  refine ⟨s', h1, h2, ?_, ?_⟩
  · rw [h3]; decide
  · rw [h4]; decide

end Pico8
